import Mathlib

/-!
Shallow embedding of the sentinel-s3 repository (module sentinel_s3/converter.py,
with its near-duplicate scrawler/converter.py noted where it differs), together
with theorems settling the frozen claims about its specification.

Python dicts are modelled as ordered association lists (insertion order, unique
keys maintained by the update operations), Python runtime values as the `PyV`
inductive, Python floats as exact rationals (the claims concern structure and
string handling, not floating-point rounding), and fallible Python code as
`Except String` where the error string names the Python exception class.
External library calls (pyproj coordinate transforms) are abstracted as
function parameters, as the specification declares them out of scope.
-/

set_option maxHeartbeats 1000000

namespace SentinelS3

/-- Model of a Python runtime value as it appears in this codebase: strings,
ints, floats (as exact rationals), None, lists, tuples and string-keyed dicts
(ordered association lists). -/
inductive PyV where
  | vstr : String → PyV
  | vint : Int → PyV
  | vfloat : Rat → PyV
  | vnone : PyV
  | vlist : List PyV → PyV
  | vtuple : List PyV → PyV
  | vdict : List (String × PyV) → PyV
  deriving Repr

/-- An ordered Python dict with string keys. -/
abbrev Dict := List (String × PyV)

/-- Python `d[k]` lookup result: the value at the first matching key. -/
def dLookup : Dict → String → Option PyV
  | [], _ => none
  | (k', v) :: d, k => if k' = k then some v else dLookup d k

/-- Python `k in d` membership test. -/
def dMem : Dict → String → Bool
  | [], _ => false
  | (k', _) :: d, k => k' = k || dMem d k

/-- Python `d[k] = v`: update the value in place when the key exists
(keeping its position), otherwise append the new entry at the end. -/
def dSet : Dict → String → PyV → Dict
  | [], k, v => [(k, v)]
  | (k', v') :: d, k, v => if k' = k then (k', v) :: d else (k', v') :: dSet d k v

/-- Python `d.pop(k)` on the dict part: the dict with the first entry for `k`
removed (the caller checks presence separately where `pop` can raise). -/
def dPop : Dict → String → Dict
  | [], _ => []
  | (k', v') :: d, k => if k' = k then d else (k', v') :: dPop d k

/-- Python `d.update(p)`: set every entry of `p` into `d` in order. -/
def dUpdate (d p : Dict) : Dict :=
  p.foldl (fun acc kv => dSet acc kv.1 kv.2) d

/-- Python truthiness for the values of this model (`if x:`). -/
def pyTruthy : PyV → Bool
  | .vstr s => decide (s ≠ "")
  | .vint n => decide (n ≠ 0)
  | .vfloat q => decide (q ≠ 0)
  | .vnone => false
  | .vlist l => !l.isEmpty
  | .vtuple l => !l.isEmpty
  | .vdict d => !d.isEmpty

/-- Is the value a Python list or tuple (the `isinstance(x, list) or
isinstance(x, tuple)` test of convert_coordinates)? -/
def isSeq : PyV → Bool
  | .vlist _ => true
  | .vtuple _ => true
  | _ => false

/-- Is the value a Python float (the `isinstance(x, float)` test)?  Python
ints are not floats. -/
def isFloat : PyV → Bool
  | .vfloat _ => true
  | _ => false

/-- Is the value iterable, so that Python `list(x)` succeeds? -/
def isIterable : PyV → Bool
  | .vstr _ => true
  | .vlist _ => true
  | .vtuple _ => true
  | .vdict _ => true
  | _ => false

/-- Python `list(x)`: elements of a list or tuple, the characters of a string,
the keys of a dict; a `TypeError` on non-iterable values. -/
def pyListOf : PyV → Except String (List PyV)
  | .vlist l => .ok l
  | .vtuple l => .ok l
  | .vstr s => .ok (s.data.map (fun c => .vstr (String.mk [c])))
  | .vdict d => .ok (d.map (fun kv => .vstr kv.1))
  | _ => .error "TypeError"

/-- Model of `wordpad.pad(value, n)` from the external wordpad library: the
string left-padded with zeros up to length `n`. -/
def pad (s : String) (n : Nat) : String :=
  String.mk (List.replicate (n - s.length) '0') ++ s

/-- Splitting worker: accumulate the current field (reversed) and emit a
field at each separator. -/
def pySplitGo (sep : Char) : List Char → List Char → List String
  | [], acc => [String.mk acc.reverse]
  | c :: rest, acc =>
    if c = sep then String.mk acc.reverse :: pySplitGo sep rest []
    else pySplitGo sep rest (c :: acc)

/-- Python `s.split(sep)` for the single-character separators this code uses
(colon, underscore, the letter T): always at least one field, empty fields
kept. -/
def pySplit (s : String) (sep : Char) : List String := pySplitGo sep s.data []

/-- ASCII whitespace test for the strip step of Python numeric parsing. -/
def isSpaceA (c : Char) : Bool := c = ' ' || c = '\t' || c = '\n' || c = '\r'

/-- Python `s.strip()` as applied by float() and int() before parsing. -/
def pyStrip (l : List Char) : List Char :=
  ((l.dropWhile isSpaceA).reverse.dropWhile isSpaceA).reverse

/-- Value of digits read in base 10. -/
def digitsToNat (l : List Char) : Nat :=
  l.foldl (fun a c => a * 10 + (c.toNat - 48)) 0

/-- Unsigned part of Python `float(s)` parsing, on the decimal forms the
metadata uses: digits, optionally with a single dot and a fraction part. -/
def parseFloatCore (l : List Char) : Option Rat :=
  let intPart := l.takeWhile Char.isDigit
  let rest := l.dropWhile Char.isDigit
  match rest with
  | [] => if intPart = [] then none else some (digitsToNat intPart)
  | '.' :: frac =>
    if frac.all Char.isDigit ∧ (intPart ≠ [] ∨ frac ≠ []) then
      some ((digitsToNat intPart : Rat) + (digitsToNat frac : Rat) / ((10 : Rat) ^ frac.length))
    else none
  | _ => none

/-- Python `float(s)` string parsing (decimal literals with optional sign;
exponents and special values do not occur in this metadata). -/
def parseFloat (s : String) : Option Rat :=
  match pyStrip s.data with
  | '+' :: r => parseFloatCore r
  | '-' :: r => (parseFloatCore r).map Neg.neg
  | r => parseFloatCore r

/-- Unsigned part of Python `int(s)` parsing: digits only. -/
def parseIntCore (l : List Char) : Option Int :=
  if l ≠ [] ∧ l.all Char.isDigit then some (digitsToNat l) else none

/-- Python `int(s)` string parsing: optional sign then digits only. -/
def parseInt (s : String) : Option Int :=
  match pyStrip s.data with
  | '+' :: r => parseIntCore r
  | '-' :: r => (parseIntCore r).map Neg.neg
  | r => parseIntCore r

/-- Truncation of a rational toward zero, as Python `int(float)` does. -/
def truncRat (q : Rat) : Int :=
  if 0 ≤ q then ⌊q⌋ else -⌊-q⌋

/-- Python `float(x)`: parse strings, pass numbers through, `TypeError` on
None and other non-numbers, `ValueError` on unparsable strings. -/
def py_float : PyV → Except String Rat
  | .vstr s => match parseFloat s with
    | some q => .ok q
    | none => .error "ValueError"
  | .vfloat q => .ok q
  | .vint n => .ok (n : Rat)
  | _ => .error "TypeError"

/-- Python `int(x)` with the same error policy as `py_float`. -/
def py_int : PyV → Except String Int
  | .vstr s => match parseInt s with
    | some n => .ok n
    | none => .error "ValueError"
  | .vint n => .ok n
  | .vfloat q => .ok (truncRat q)
  | _ => .error "TypeError"

/-- Python `str(x)` as used when formatting URL and grid-code pieces.  The
container cases never occur in the data model and get a fixed rendering. -/
def pyStr : PyV → String
  | .vstr s => s
  | .vint n => n.repr
  | .vfloat q => toString q
  | .vnone => "None"
  | .vlist _ => "<list>"
  | .vtuple _ => "<tuple>"
  | .vdict _ => "<dict>"

/-- The canonical WGS84 URN written by to_latlon. -/
def wgs84Urn : String := "urn:ogc:def:crs:EPSG:8.9:4326"

/-- Python subscript `x[k]` for a string key: dict lookup with `KeyError` on a
missing key and `TypeError` on a non-dict receiver. -/
def pyGetItem : PyV → String → Except String PyV
  | .vdict d, k => match dLookup d k with
    | some v => .ok v
    | none => .error "KeyError"
  | _, _ => .error "TypeError"

/-- Source `epsg_code(geojson)`: read `geojson['crs']['properties']['name']`,
split it on colons, and when an `EPSG` segment is present parse the last
segment as the code (`None` on parse failure).  Any other path returns `None`;
a malformed `crs` member raises through the unguarded subscripts. -/
def epsg_code (geojson : PyV) : Except String (Option Int) :=
  match geojson with
  | .vdict d =>
    if dMem d "crs" then do
      let crs ← pyGetItem (.vdict d) "crs"
      let props ← pyGetItem crs "properties"
      let nameV ← pyGetItem props "name"
      match nameV with
      | .vstr s =>
        let urn := pySplit s ':'
        if "EPSG" ∈ urn then
          match parseInt (urn.getLastD "") with
          | some n => pure (some n)
          | none => pure none
        else
          pure none
      | _ => .error "AttributeError"
    else
      pure none
  | _ => pure none

mutual

/-- Source `convert_coordinates(coords, origin, wgs84)` with the pyproj
transform for the chosen projections abstracted as `tr`.  On a list or tuple:
when the first element is again a sequence, recurse over `list(c)` for every
element `c` (via convElems), embedding a Python `None` result as an element;
when the first element is a float, apply the transform to the whole element
list; an empty sequence raises `IndexError` which the source catches, and
every remaining shape falls through to `return None`. -/
def convert_coordinates (tr : List PyV → List PyV) : PyV → Except String (Option PyV)
  | .vlist [] => .ok none
  | .vlist (c0 :: rest) =>
    if isSeq c0 then do
      let rs ← convElems tr (c0 :: rest)
      pure (some (.vlist rs))
    else if isFloat c0 then
      pure (some (.vlist (tr (c0 :: rest))))
    else
      .ok none
  | .vtuple [] => .ok none
  | .vtuple (c0 :: rest) =>
    if isSeq c0 then do
      let rs ← convElems tr (c0 :: rest)
      pure (some (.vlist rs))
    else if isFloat c0 then
      pure (some (.vlist (tr (c0 :: rest))))
    else
      .ok none
  | _ => .ok none

/-- The list comprehension of convert_coordinates: for each element `c`,
Python computes `convert_coordinates(list(c), ...)`.  For a list or tuple
`c` that equals the recursive call on `c` itself; for a string or dict,
`list(c)` yields characters or string keys, whose head is never a sequence
or a float, so the recursive call always contributes the embedded `None`;
for every other value `list(c)` raises an uncaught `TypeError`. -/
def convElems (tr : List PyV → List PyV) : List PyV → Except String (List PyV)
  | [] => .ok []
  | c :: cs => do
    let r ← (if isSeq c then do
        let o ← convert_coordinates tr c
        pure (match o with | some v => v | none => PyV.vnone)
      else if isIterable c then
        pure PyV.vnone
      else
        (.error "TypeError" : Except String PyV))
    let rs ← convElems tr cs
    pure (r :: rs)

end

/-- Code resolution step of to_latlon: a truthy explicit argument wins,
otherwise the code is read from the embedded crs tag. -/
def resolveCode (geojson : PyV) (origin_espg : Option Int) : Except String (Option Int) :=
  match origin_espg with
  | some c => if c ≠ 0 then pure (some c) else epsg_code geojson
  | none => epsg_code geojson

/-- The crs rewrite of to_latlon when a `crs` entry already exists:
`geojson['crs']['properties']['name'] = wgs84Urn`, raising on malformed
shapes exactly as the chained Python subscripts do. -/
def setCrsName (d : Dict) : Except String Dict := do
  let crs ← pyGetItem (.vdict d) "crs"
  match crs with
  | .vdict cd => do
    let props ← pyGetItem (.vdict cd) "properties"
    match props with
    | .vdict pd =>
      pure (dSet d "crs" (.vdict (dSet cd "properties" (.vdict (dSet pd "name" (.vstr wgs84Urn))))))
    | _ => .error "TypeError"
  | _ => .error "TypeError"

/-- The fresh crs dict to_latlon installs when none was present. -/
def freshCrs : PyV :=
  .vdict [("type", .vstr "name"), ("properties", .vdict [("name", .vstr wgs84Urn)])]

/-- Source `to_latlon(geojson, origin_espg=None)` with the pyproj transform
abstracted as `trans origin target`.  On non-dicts, or when no truthy EPSG
code can be determined, the input is returned unchanged.  Otherwise the
coordinates are converted; only a truthy conversion result is written back,
together with the canonical WGS84 crs tag (created when absent). -/
def to_latlon (trans : Int → Int → List PyV → List PyV) (geojson : PyV)
    (origin_espg : Option Int) : Except String PyV :=
  match geojson with
  | .vdict d => do
    let code ← resolveCode (.vdict d) origin_espg
    match code with
    | some c =>
      if c ≠ 0 then do
        let coords ← pyGetItem (.vdict d) "coordinates"
        let newCoords ← convert_coordinates (trans c 4326) coords
        match newCoords with
        | some nc =>
          if pyTruthy nc then do
            let d1 := dSet d "coordinates" nc
            if dMem d1 "crs" then do
              let d2 ← setCrsName d1
              pure (.vdict d2)
            else
              pure (.vdict (dSet d1 "crs" freshCrs))
          else
            pure (.vdict d)
        | none => pure (.vdict d)
      else
        pure (.vdict d)
    | none => pure (.vdict d)
  | g => pure g

/-- Character class `[A-Z]` of the source regexes (ASCII). -/
def isUpperA (c : Char) : Bool := decide (65 ≤ c.toNat ∧ c.toNat ≤ 90)

/-- Character class `[a-z]` of the source regexes (ASCII). -/
def isLowerA (c : Char) : Bool := decide (97 ≤ c.toNat ∧ c.toNat ≤ 122)

/-- Character class `[0-9]` of the source regexes (ASCII). -/
def isDigitA (c : Char) : Bool := decide (48 ≤ c.toNat ∧ c.toNat ≤ 57)

/-- Python str.lower on one character (the ASCII letters this metadata uses). -/
def pyLowerChar (c : Char) : Char :=
  if isUpperA c then Char.ofNat (c.toNat + 32) else c

/-- Python str.lower (ASCII model). -/
def pyLower (s : String) : String := String.mk (s.data.map pyLowerChar)

/-- Does the list start with a lowercase letter (the `[a-z]+` lookahead of the
first substitution)? -/
def headIsLower : List Char → Bool
  | r :: _ => isLowerA r
  | [] => false

/-- Step function of the first substitution, with a fuel argument for
structural termination; every step consumes at least one character, so fuel
equal to the input length (as sub1 passes) never runs out. -/
def sub1Go : Nat → List Char → List Char
  | 0, l => l
  | _ + 1, [] => []
  | _ + 1, [c] => [c]
  | fuel + 1, c :: u :: rest =>
    if (c != '\n') && isUpperA u && headIsLower rest then
      c :: '_' :: u :: (rest.takeWhile isLowerA ++ sub1Go fuel (rest.dropWhile isLowerA))
    else
      c :: sub1Go fuel (u :: rest)

/-- The first substitution of camelcase_underscore, scanning left to right
without overlap: any non-newline character followed by an uppercase letter and
one or more lowercase letters (taken greedily) gets an underscore inserted
after the first character, and scanning resumes after the match. -/
def sub1 (l : List Char) : List Char := sub1Go l.length l

/-- The second substitution of camelcase_underscore: a lowercase letter or
digit followed by an uppercase letter gets an underscore inserted between
them, the match consuming both characters. -/
def sub2 : List Char → List Char
  | [] => []
  | [c] => [c]
  | c :: u :: rest =>
    if (isLowerA c || isDigitA c) && isUpperA u then
      c :: '_' :: u :: sub2 rest
    else
      c :: sub2 (u :: rest)

/-- Source camelcase_underscore: the two regular-expression substitutions
followed by str.lower. -/
def camelcase_underscore (name : String) : String :=
  String.mk ((sub2 (sub1 name.data)).map pyLowerChar)

/-- Model of a parsed XML element: tag, attributes, text, children.  The
parsing itself (etree.parse) is an external collaborator; the model works on
the parsed tree. -/
inductive XmlEl where
  | mk : String → List (String × String) → Option String → List XmlEl → XmlEl

def XmlEl.tag : XmlEl → String
  | .mk t _ _ _ => t

def XmlEl.attrs : XmlEl → List (String × String)
  | .mk _ a _ _ => a

def XmlEl.text : XmlEl → Option String
  | .mk _ _ t _ => t

def XmlEl.children : XmlEl → List XmlEl
  | .mk _ _ _ c => c

mutual

/-- All proper descendants of an element in document order (the ElementTree
descendant axis used by the findall calls). -/
def descendants : XmlEl → List XmlEl
  | .mk _ _ _ ch => descList ch

/-- Nodes of a forest in document order, each followed by its descendants. -/
def descList : List XmlEl → List XmlEl
  | [] => []
  | c :: cs => c :: (descendants c ++ descList cs)

end

/-- Source `root.findall(".//" + key)`: descendants with the given tag, in
document order. -/
def findall (root : XmlEl) (key : String) : List XmlEl :=
  (descendants root).filter (fun el => el.tag == key)

/-- Source get_tiles_list(element): for each child of the Product_Organisation
element, take the first descendant Granules element (IndexError when absent),
read its granuleIdentifier attribute (KeyError when absent), split the name on
underscores and key the name under the second-to-last segment (IndexError when
there is no such segment).  Duplicate grid codes overwrite, first position
kept, as a Python dict does. -/
def get_tiles_list (element : XmlEl) : Except String (List (String × PyV)) := do
  let entries ← element.children.mapM (fun el => do
    let g ← match (findall el "Granules").head? with
      | some g => pure g
      | none => Except.error "IndexError"
    let name ← match g.attrs.lookup "granuleIdentifier" with
      | some n => pure n
      | none => Except.error "KeyError"
    let parts := pySplit name '_'
    if parts.length ≥ 2 then
      pure (parts.getD (parts.length - 2) "", name)
    else
      Except.error "IndexError")
  pure (entries.foldl (fun acc kv => dSet acc kv.1 (.vstr kv.2)) [])

/-- The band-name step of metadata_to_dict on one band text: drop every
letter B (a Python replace of one character by the empty string), and when
exactly one character remains, emit B plus that character zero-padded to two
characters; otherwise keep the original text.  The scrawler duplicate skips
this normalization and appends the raw text. -/
def normalize_band (s : String) : String :=
  let band : String := String.mk (s.data.filter (fun c => c != 'B'))
  if band.length == 1 then "B" ++ pad band 2 else s

/-- The Band_List loop of metadata_to_dict: each child contributes its
normalized text; a child without text raises AttributeError on the replace
call. -/
def band_pass (bandsEl : XmlEl) : Except String (List PyV) :=
  bandsEl.children.mapM (fun b => match b.text with
    | some s => pure (PyV.vstr (normalize_band s))
    | none => Except.error "AttributeError")

/-- The fixed ordered key list of metadata_to_dict. -/
def scalar_keys : List String :=
  ["SPACECRAFT_NAME", "PRODUCT_STOP_TIME", "Cloud_Coverage_Assessment",
   "PROCESSING_LEVEL", "PRODUCT_TYPE", "PROCESSING_BASELINE",
   "SENSING_ORBIT_NUMBER", "SENSING_ORBIT_DIRECTION", "PRODUCT_FORMAT"]

/-- Value recorded for one fixed scalar key: the text of the first matching
descendant; None both when no element matches (the caught IndexError) and
when the element has no text. -/
def scalarVal (root : XmlEl) (key : String) : PyV :=
  match (findall root key).head? with
  | some el => match el.text with
    | some s => .vstr s
    | none => .vnone
  | none => .vnone

/-- The fixed-key extraction loop of metadata_to_dict, keys lowercased. -/
def scalar_pass (root : XmlEl) : Dict :=
  scalar_keys.map (fun k => (pyLower k, scalarVal root k))

/-- Source metadata_to_dict on the parsed XML root: the fixed-key pass, the
float conversion of the cloud-coverage field (popped and re-added under the
product_ prefix), the int conversion of the orbit number (updated in place),
the tile mapping and the band list.  The scrawler duplicate differs only in
skipping the int conversion and the band normalization. -/
def metadata_to_dict (root : XmlEl) : Except String Dict := do
  let meta := scalar_pass root
  let ccaV ← match dLookup meta "cloud_coverage_assessment" with
    | some v => pure v
    | none => Except.error "KeyError"
  let cca ← py_float ccaV
  let meta := dSet (dPop meta "cloud_coverage_assessment")
    "product_cloud_coverage_assessment" (.vfloat cca)
  let sonV ← match dLookup meta "sensing_orbit_number" with
    | some v => pure v
    | none => Except.error "KeyError"
  let son ← py_int sonV
  let meta := dSet meta "sensing_orbit_number" (.vint son)
  let po ← match (findall root "Product_Organisation").head? with
    | some el => pure el
    | none => Except.error "IndexError"
  let tiles ← get_tiles_list po
  let meta := dSet meta "tiles" (.vdict tiles)
  let bl ← match (findall root "Band_List").head? with
    | some el => pure el
    | none => Except.error "IndexError"
  let bands ← band_pass bl
  pure (dSet meta "band_list" (.vlist bands))

/-- The fixed S3 base URL of tile_metadata. -/
def s3_url : String := "http://sentinel-s2-l1c.s3.amazonaws.com"

/-- Grid-code construction of tile_metadata: T followed by the utmZone value
padded with zeros to two characters, the latitude band and the grid square
(each inserted through str as the format call does).  The scrawler duplicate
omits the padding. -/
def grid_code (uz lat sq : PyV) : String :=
  "T" ++ pad (pyStr uz) 2 ++ pyStr lat ++ pyStr sq

/-- Result of tile_metadata: the assembled record plus the final states of
the two input dicts, which the source mutates in place. -/
structure TMOut where
  meta : Dict
  tile : Dict
  product : Dict

/-- Error of tile_metadata: the Python exception class plus the states of the
tile and product dicts at the moment of the raise, since a caller observes
the in-place mutations done before it. -/
abbrev TMErr := String × Dict × Dict

/-- Dict subscript inside tile_metadata, raising KeyError with the current
dict states. -/
def tmGet (t p : Dict) (d : Dict) (k : String) : Except TMErr PyV :=
  match dLookup d k with
  | some v => .ok v
  | none => .error ("KeyError", t, p)

/-- The geometry-bearing key names rewritten at the end of tile_metadata. -/
def geoKeys : List String := ["tile_origin", "tile_geometry", "tile_data_geometry"]

/-- One step of the geometry-reprojection loop at the end of tile_metadata:
when the key is present, its value is replaced by its to_latlon image
(errors carrying the current dict states); otherwise nothing happens. -/
def geoStep (trans : Int → Int → List PyV → List PyV) (t q : Dict)
    (m : Dict) (k : String) : Except TMErr Dict :=
  if dMem m k then do
    let v ← match dLookup m k with
      | some v => Except.ok v
      | none => Except.error (("KeyError", t, q) : TMErr)
    let v2 ← match to_latlon trans v none with
      | .ok w => Except.ok w
      | .error e => Except.error ((e, t, q) : TMErr)
    pure (dSet m k v2)
  else pure m

/-- Source tile_metadata(tile, product) with the pyproj transform abstracted
as trans: build the grid code, look the tile name up (fatal KeyError on a
miss), record date and thumbnail, pop the transient keys (tiles, datastrip,
band_list), copy the remaining tile fields under underscored names, merge the
remaining product fields, build the per-band download links from the path
field of the merged record, and reproject any geometry-bearing keys.  The
scrawler duplicate omits the padding, the thumbnail and the geometry loop. -/
def tile_metadata (trans : Int → Int → List PyV → List PyV) (tile product : Dict) :
    Except TMErr TMOut := do
  let uz ← tmGet tile product tile "utmZone"
  let lat ← tmGet tile product tile "latitudeBand"
  let sq ← tmGet tile product tile "gridSquare"
  let grid := grid_code uz lat sq
  let tilesV ← tmGet tile product product "tiles"
  let tileName ← match tilesV with
    | .vdict tl => match dLookup tl grid with
      | some v => Except.ok v
      | none => Except.error (("KeyError", tile, product) : TMErr)
    | _ => Except.error (("TypeError", tile, product) : TMErr)
  let meta : Dict := [("tile_name", tileName)]
  let tsV ← tmGet tile product tile "timestamp"
  let ts ← match tsV with
    | .vstr s => Except.ok s
    | _ => Except.error (("AttributeError", tile, product) : TMErr)
  let meta := dSet meta "date" (.vstr ((pySplit ts 'T').headD ""))
  let pathV ← tmGet tile product tile "path"
  let meta := dSet meta "thumbnail" (.vstr (s3_url ++ "/" ++ pyStr pathV ++ "/preview.jp2"))
  let product1 := dPop product "tiles"
  let tile1 ← if dMem tile "datastrip" then pure (dPop tile "datastrip")
    else Except.error (("KeyError", tile, product1) : TMErr)
  let bandsV ← match dLookup product1 "band_list" with
    | some v => Except.ok v
    | none => Except.error (("KeyError", tile1, product1) : TMErr)
  let product2 := dPop product1 "band_list"
  let meta := tile1.foldl (fun m kv => dSet m (camelcase_underscore kv.1) kv.2) meta
  let meta := dUpdate meta product2
  let mpathV ← match dLookup meta "path" with
    | some v => Except.ok v
    | none => Except.error (("KeyError", tile1, product2) : TMErr)
  let bandItems ← match pyListOf bandsV with
    | .ok l => Except.ok l
    | .error e => Except.error ((e, tile1, product2) : TMErr)
  let links := bandItems.map
    (fun b => PyV.vstr (s3_url ++ "/" ++ pyStr mpathV ++ "/" ++ pyStr b ++ ".jp2"))
  let meta := dSet meta "download_links" (.vdict [("aws_s3", .vlist links)])
  let meta ← geoKeys.foldlM (geoStep trans tile1 product2) meta
  pure ⟨meta, tile1, product2⟩

/-- The pyproj transform between a projection and itself: the identity in
this exact model (the specification allows floating-point tolerance). -/
def idTrans : Int → Int → List PyV → List PyV := fun _ _ l => l

/-- A transform whose outputs are always flat non-empty float lists, as the
real pyproj transform produces a pair or triple of floats. -/
def flatTrans : Int → Int → List PyV → List PyV :=
  fun _ _ _ => [PyV.vfloat 0, PyV.vfloat 0]

/-- Projection reading crs.properties.name of a geometry dict. -/
def crsNameOf (d : Dict) : Option String :=
  match dLookup d "crs" with
  | some (.vdict cd) =>
    (match dLookup cd "properties" with
     | some (.vdict pd) =>
       (match dLookup pd "name" with
        | some (.vstr s) => some s
        | _ => none)
     | _ => none)
  | _ => none

/-- Well-formed GeoJSON coordinate structures as the tile records carry them
(nested lists): either a non-empty flat list of floats (a coordinate pair or
triple, possibly with trailing components), or a non-empty list of
well-formed lists. -/
inductive WFCoords : PyV → Prop where
  | pair : ∀ l, l ≠ [] → (∀ c ∈ l, isFloat c = true) → WFCoords (.vlist l)
  | nest : ∀ l, l ≠ [] → (∀ c ∈ l, ∃ cs, c = PyV.vlist cs) →
      (∀ c ∈ l, WFCoords c) → WFCoords (.vlist l)

mutual

/-- Nesting depth of a coordinate structure. -/
def depthOf : PyV → Nat
  | .vlist cs => 1 + depthMax cs
  | .vtuple cs => 1 + depthMax cs
  | _ => 0

/-- Largest nesting depth among a list of values. -/
def depthMax : List PyV → Nat
  | [] => 0
  | c :: cs => max (depthOf c) (depthMax cs)

end

/-- Head condition of a sequence inside convert_coordinates: when the first
element is a sequence, every element must be iterable, or the comprehension
raises TypeError on the first offender. -/
def seqElemsOK : List PyV → Bool
  | [] => true
  | c0 :: rest => if isSeq c0 then (c0 :: rest).all isIterable else true

mutual

/-- No sequence anywhere inside the value mixes a sequence head with a
non-iterable sibling: the inputs on which convert_coordinates cannot raise. -/
def NoMix : PyV → Bool
  | .vlist cs => seqElemsOK cs && NoMixList cs
  | .vtuple cs => seqElemsOK cs && NoMixList cs
  | _ => true

/-- NoMix for every element of a list. -/
def NoMixList : List PyV → Bool
  | [] => true
  | c :: cs => NoMix c && NoMixList cs

end

/-- Branches of the comprehension that contribute an embedded None: strings,
dicts, empty sequences, and sequences headed by a value that is neither a
sequence nor a float. -/
def nullBranch : PyV → Bool
  | .vstr _ => true
  | .vdict _ => true
  | .vlist [] => true
  | .vtuple [] => true
  | .vlist (c0 :: _) => !(isSeq c0 || isFloat c0)
  | .vtuple (c0 :: _) => !(isSeq c0 || isFloat c0)
  | _ => false

/-! Basic lemmas about the ordered-dict operations. -/

theorem dLookup_dSet_self (d : Dict) (k : String) (v : PyV) :
    dLookup (dSet d k v) k = some v := by
  induction d with
  | nil => simp [dSet, dLookup]
  | cons kv d ih =>
    obtain ⟨k', v'⟩ := kv
    by_cases h : k' = k <;> simp [dSet, dLookup, h, ih]

theorem dLookup_dSet_ne (d : Dict) (k k' : String) (v : PyV) (h : k' ≠ k) :
    dLookup (dSet d k v) k' = dLookup d k' := by
  induction d with
  | nil =>
    simp only [dSet, dLookup]
    rw [if_neg (fun he => h he.symm)]
  | cons kv d ih =>
    obtain ⟨k0, v0⟩ := kv
    simp only [dSet]
    by_cases h0 : k0 = k
    · rw [if_pos h0]
      subst h0
      simp only [dLookup]
      rw [if_neg (fun he => h he.symm), if_neg (fun he => h he.symm)]
    · rw [if_neg h0]
      simp only [dLookup]
      by_cases h1 : k0 = k'
      · rw [if_pos h1, if_pos h1]
      · rw [if_neg h1, if_neg h1, ih]

theorem dMem_dSet (d : Dict) (k k' : String) (v : PyV) :
    dMem (dSet d k v) k' = (dMem d k' || decide (k = k')) := by
  induction d with
  | nil => simp [dSet, dMem]
  | cons kv d ih =>
    obtain ⟨k0, v0⟩ := kv
    simp only [dSet]
    by_cases h0 : k0 = k
    · rw [if_pos h0]
      subst h0
      by_cases h1 : k0 = k'
      · simp [dMem, h1]
      · simp [dMem, h1]
    · rw [if_neg h0]
      simp [dMem, ih, Bool.or_assoc]

theorem dMem_of_dLookup {d : Dict} {k : String} {v : PyV}
    (h : dLookup d k = some v) : dMem d k = true := by
  induction d with
  | nil => simp [dLookup] at h
  | cons kv d ih =>
    obtain ⟨k0, v0⟩ := kv
    by_cases h0 : k0 = k
    · simp [dMem, h0]
    · simp [dLookup, h0] at h
      simp [dMem, h0, ih h]

theorem dMem_false_dLookup {d : Dict} {k : String}
    (h : dMem d k = false) : dLookup d k = none := by
  induction d with
  | nil => simp [dLookup]
  | cons kv d ih =>
    obtain ⟨k0, v0⟩ := kv
    simp [dMem] at h
    simp [dLookup, h.1, ih h.2]

theorem dLookup_dPop_ne (d : Dict) (k k' : String) (h : k' ≠ k) :
    dLookup (dPop d k) k' = dLookup d k' := by
  induction d with
  | nil => simp [dPop]
  | cons kv d ih =>
    obtain ⟨k0, v0⟩ := kv
    simp only [dPop]
    by_cases h0 : k0 = k
    · rw [if_pos h0]
      subst h0
      simp only [dLookup]
      rw [if_neg (fun he => h he.symm)]
    · rw [if_neg h0]
      simp only [dLookup]
      by_cases h1 : k0 = k'
      · rw [if_pos h1, if_pos h1]
      · rw [if_neg h1, if_neg h1, ih]

theorem dMem_dPop_ne (d : Dict) (k k' : String) (h : k' ≠ k) :
    dMem (dPop d k) k' = dMem d k' := by
  induction d with
  | nil => simp [dPop]
  | cons kv d ih =>
    obtain ⟨k0, v0⟩ := kv
    simp only [dPop]
    by_cases h0 : k0 = k
    · rw [if_pos h0]
      subst h0
      simp only [dMem]
      have : decide (k0 = k') = false := by
        simp
        exact fun he => h he.symm
      rw [this, Bool.false_or]
    · rw [if_neg h0]
      simp [dMem, ih]

theorem dLookup_dUpdate_of_not_mem (m : Dict) (p : Dict) (k : String)
    (h : dMem p k = false) : dLookup (dUpdate m p) k = dLookup m k := by
  induction p generalizing m with
  | nil => simp [dUpdate]
  | cons kv p ih =>
    obtain ⟨k0, v0⟩ := kv
    simp [dMem] at h
    have : dUpdate m ((k0, v0) :: p) = dUpdate (dSet m k0 v0) p := rfl
    rw [this, ih _ h.2, dLookup_dSet_ne _ _ _ _ (fun he => h.1 (he.symm))]

theorem dMem_dUpdate_false (m : Dict) (p : Dict) (k : String)
    (hm : dMem m k = false) (hp : dMem p k = false) :
    dMem (dUpdate m p) k = false := by
  induction p generalizing m with
  | nil => simpa [dUpdate] using hm
  | cons kv p ih =>
    obtain ⟨k0, v0⟩ := kv
    simp [dMem] at hp
    have : dUpdate m ((k0, v0) :: p) = dUpdate (dSet m k0 v0) p := rfl
    rw [this]
    refine ih _ ?_ hp.2
    simp [dMem_dSet, hm, hp.1]

/-! Claim C3: the band-name normalization. -/

/-- C3 counterexample: the claim says a band text with a non-numeric suffix
such as BA passes through unchanged, but the source removes every letter B
and, left with the single character A, emits it zero-padded: B0A. -/
theorem c3_counterexample : normalize_band "BA" = "B0A" ∧ "B0A" ≠ "BA" := by
  exact ⟨by decide, by decide⟩

/-- C3 (amended): for B followed by a single digit the output is B plus the
zero-padded two-digit form; a text passes through unchanged exactly when the
remainder after deleting every letter B does not have length one (so B8A is
unchanged, but BA becomes B0A). -/
theorem c3_theorem :
    (∀ d : Fin 10, normalize_band (String.mk ['B', Char.ofNat (48 + (d : Nat))]) =
      String.mk ['B', '0', Char.ofNat (48 + (d : Nat))]) ∧
    (∀ s : String, (s.data.filter (fun c => c != 'B')).length ≠ 1 →
      normalize_band s = s) := by
  constructor
  · decide
  · intro s h
    unfold normalize_band
    have hlen : ¬ ((String.mk (s.data.filter (fun c => c != 'B'))).length == 1) = true := by
      intro hc
      exact h (by simpa using hc)
    rw [if_neg hlen]

/-- C3 witness: concrete instances of both parts of the amended claim. -/
theorem c3_witness : normalize_band (String.mk ['B', Char.ofNat 50]) = "B02" ∧
    normalize_band "B8A" = "B8A" := by
  refine ⟨?_, c3_theorem.2 "B8A" (by decide)⟩
  have h := c3_theorem.1 ⟨2, by omega⟩
  simpa using h

/-! Claim C4: grid-code construction. -/

/-- The wordpad padding of a UTM zone number below 61 agrees with the
two-digit zero-padded decimal form. -/
theorem pad_repr_two : ∀ z : Fin 61,
    pad (Nat.repr (z : Nat)) 2 =
      (if (z : Nat) < 10 then "0" ++ Nat.repr (z : Nat) else Nat.repr (z : Nat)) := by
  decide

/-- C4: grid-code construction in tile_metadata is a function of the three
grid components and zero-pads the UTM zone to two digits (UTM zones range
over 1..60, so the bound covers the whole domain). -/
theorem c4_theorem (z : Nat) (hz : z ≤ 60) (lat sq : String) :
    grid_code (.vint (z : Int)) (.vstr lat) (.vstr sq) =
      "T" ++ (if z < 10 then "0" ++ Nat.repr z else Nat.repr z) ++ lat ++ sq := by
  have h := pad_repr_two ⟨z, by omega⟩
  simp only [grid_code, pyStr]
  have hint : ((z : Int)).repr = Nat.repr z := by
    rfl
  rw [hint, h]

/-- C4 witness: the spec scenario T32TQM and a single-digit zone T07QM. -/
theorem c4_witness :
    grid_code (.vint 32) (.vstr "T") (.vstr "QM") = "T32TQM" ∧
    grid_code (.vint 7) (.vstr "T") (.vstr "QM") = "T07TQM" := by
  constructor
  · exact (c4_theorem 32 (by omega) "T" "QM").trans (by decide)
  · exact (c4_theorem 7 (by omega) "T" "QM").trans (by decide)

/-! Claim C9: idempotence of the camel-case normalizer. -/

theorem char_ofNat_toNat (n : Nat) (h : n < 55296) : (Char.ofNat n).toNat = n := by
  have hvalid : n.isValidChar := Or.inl h
  unfold Char.ofNat
  rw [dif_pos hvalid]
  simp [Char.ofNatAux, Char.toNat, UInt32.toNat]

theorem isUpperA_pyLowerChar (c : Char) : isUpperA (pyLowerChar c) = false := by
  unfold pyLowerChar
  by_cases h : isUpperA c = true
  · rw [if_pos h]
    unfold isUpperA at h ⊢
    simp only [decide_eq_true_eq] at h
    have hval : (Char.ofNat (c.toNat + 32)).toNat = c.toNat + 32 :=
      char_ofNat_toNat _ (by omega)
    rw [hval]
    simp only [decide_eq_false_iff_not]
    omega
  · rw [if_neg h]
    rw [Bool.not_eq_true] at h
    exact h

theorem pyLowerChar_of_not_upper {c : Char} (h : isUpperA c = false) :
    pyLowerChar c = c := by
  simp [pyLowerChar, h]

theorem sub1Go_of_no_upper : ∀ (n : Nat) (l : List Char),
    (∀ c ∈ l, isUpperA c = false) → sub1Go n l = l := by
  intro n
  induction n with
  | zero => intro l _; rfl
  | succ n ih =>
    intro l h
    match l with
    | [] => rfl
    | [c] => rfl
    | c :: u :: rest =>
      have hu : isUpperA u = false := h u (by simp)
      have hrest : ∀ x ∈ u :: rest, isUpperA x = false := by
        intro x hx
        exact h x (List.mem_cons_of_mem _ hx)
      simp [sub1Go, hu, ih _ hrest]

theorem sub1_of_no_upper (l : List Char) (h : ∀ c ∈ l, isUpperA c = false) :
    sub1 l = l :=
  sub1Go_of_no_upper _ l h

theorem sub2_of_no_upper : ∀ (l : List Char),
    (∀ c ∈ l, isUpperA c = false) → sub2 l = l
  | [], _ => rfl
  | [_], _ => rfl
  | c :: u :: rest, h => by
    have hu : isUpperA u = false := h u (by simp)
    have hcond : ((isLowerA c || isDigitA c) && isUpperA u) = false := by
      simp [hu]
    have hrest : ∀ x ∈ u :: rest, isUpperA x = false :=
      fun x hx => h x (List.mem_cons_of_mem _ hx)
    simp [sub2, hcond, sub2_of_no_upper (u :: rest) hrest]

theorem map_pyLowerChar_no_upper (l : List Char) :
    ∀ c ∈ l.map pyLowerChar, isUpperA c = false := by
  intro c hc
  rw [List.mem_map] at hc
  obtain ⟨a, _, ha⟩ := hc
  rw [← ha]
  exact isUpperA_pyLowerChar a

theorem map_pyLowerChar_of_no_upper (l : List Char)
    (h : ∀ c ∈ l, isUpperA c = false) : l.map pyLowerChar = l := by
  induction l with
  | nil => rfl
  | cons c cs ih =>
    have hc : isUpperA c = false := h c (by simp)
    have hcs : ∀ x ∈ cs, isUpperA x = false := fun x hx => h x (List.mem_cons_of_mem _ hx)
    simp [pyLowerChar_of_not_upper hc, ih hcs]

theorem camelcase_underscore_of_no_upper (s : String)
    (h : ∀ c ∈ s.data, isUpperA c = false) : camelcase_underscore s = s := by
  unfold camelcase_underscore
  rw [sub1_of_no_upper _ h, sub2_of_no_upper _ h, map_pyLowerChar_of_no_upper _ h]

/-- C9: camelcase_underscore is idempotent on every string, and returns every
string without ASCII uppercase letters (in particular every already
underscored lower-case key) unchanged. -/
theorem c9_theorem :
    (∀ s : String, camelcase_underscore (camelcase_underscore s) = camelcase_underscore s) ∧
    (∀ s : String, (∀ c ∈ s.data, isUpperA c = false) → camelcase_underscore s = s) := by
  constructor
  · intro s
    apply camelcase_underscore_of_no_upper
    intro c hc
    have : (camelcase_underscore s).data = (sub2 (sub1 s.data)).map pyLowerChar := rfl
    rw [this] at hc
    exact map_pyLowerChar_no_upper _ c hc
  · exact camelcase_underscore_of_no_upper

/-- C9 witness: the theorem applied to an already-underscored key and to a
camel-case key. -/
theorem c9_witness : camelcase_underscore "utm_zone" = "utm_zone" ∧
    camelcase_underscore (camelcase_underscore "tileDataGeometry") =
      camelcase_underscore "tileDataGeometry" :=
  ⟨c9_theorem.2 "utm_zone" (by decide), c9_theorem.1 "tileDataGeometry"⟩

/-! Claim C7: the unresolvable-CRS path of to_latlon. -/

/-- C7 counterexample: a crs member that is an empty dict makes the unguarded
subscript chain of epsg_code raise KeyError through to_latlon, so the no-code
path is not raise-free for every shape of the crs member. -/
theorem c7_counterexample :
    to_latlon idTrans (PyV.vdict [("coordinates", PyV.vlist [PyV.vfloat 1, PyV.vfloat 2]),
      ("crs", PyV.vdict [])]) none = .error "KeyError" := rfl

/-- C7 (amended): when the crs member is absent, or is well-shaped (a dict
whose properties entry is a dict whose name entry is a string) but yields no
EPSG code (no EPSG segment in the colon-split name, or a last segment that is
not an integer), to_latlon is a silent non-raising no-op returning the
geometry unchanged with coordinates and crs untouched; malformed crs shapes
instead raise through the unguarded subscripts of epsg_code. -/
theorem c7_theorem (trans : Int → Int → List PyV → List PyV) (d : Dict)
    (h : dMem d "crs" = false ∨
      ∃ cd pd s, dLookup d "crs" = some (.vdict cd) ∧
        dLookup cd "properties" = some (.vdict pd) ∧
        dLookup pd "name" = some (.vstr s) ∧
        ("EPSG" ∉ pySplit s ':' ∨ parseInt ((pySplit s ':').getLastD "") = none)) :
    to_latlon trans (.vdict d) none = .ok (.vdict d) := by
  have hepsg : epsg_code (.vdict d) = .ok none := by
    rcases h with h | ⟨cd, pd, s, hcrs, hprops, hname, hres⟩
    · simp [epsg_code, h, pure, Except.pure]
    · have hmem : dMem d "crs" = true := dMem_of_dLookup hcrs
      rcases hres with hres | hres
      · simp [epsg_code, hmem, pyGetItem, hcrs, hprops, hname, hres, bind, Except.bind,
          pure, Except.pure]
      · by_cases hin : "EPSG" ∈ pySplit s ':'
        · rw [List.getLastD_eq_getLast?] at hres
          simp [epsg_code, hmem, pyGetItem, hcrs, hprops, hname, hin, hres, bind, Except.bind,
            pure, Except.pure]
        · simp [epsg_code, hmem, pyGetItem, hcrs, hprops, hname, hin, bind, Except.bind,
            pure, Except.pure]
  simp [to_latlon, resolveCode, hepsg, bind, Except.bind, pure, Except.pure]

/-- C7 witness: the theorem applied to a geometry without a crs member and to
one whose crs names a non-EPSG authority. -/
theorem c7_witness :
    to_latlon idTrans (.vdict [("coordinates", PyV.vlist [PyV.vfloat 1, PyV.vfloat 2])]) none =
      .ok (.vdict [("coordinates", PyV.vlist [PyV.vfloat 1, PyV.vfloat 2])]) ∧
    to_latlon idTrans (.vdict [("crs", PyV.vdict [("properties",
        PyV.vdict [("name", PyV.vstr "urn:ogc:def:crs:OGC:1.3:CRS84")])])]) none =
      .ok (.vdict [("crs", PyV.vdict [("properties",
        PyV.vdict [("name", PyV.vstr "urn:ogc:def:crs:OGC:1.3:CRS84")])])]) := by
  constructor
  · exact c7_theorem idTrans _ (Or.inl (by decide))
  · refine c7_theorem idTrans _ (Or.inr ⟨_, _, _, rfl, rfl, rfl, Or.inl (by decide)⟩)

/-! Claim C2: reprojection of a geometry already in WGS84. -/

theorem wf_truthy (v : PyV) (hwf : WFCoords v) : pyTruthy v = true := by
  cases hwf with
  | pair l hne _ =>
    cases l with
    | nil => exact absurd rfl hne
    | cons a b => rfl
  | nest l hne _ _ =>
    cases l with
    | nil => exact absurd rfl hne
    | cons a b => rfl

theorem convElems_of_all (tr : List PyV → List PyV) :
    ∀ (l : List PyV), (∀ c ∈ l, isSeq c = true) →
      (∀ c ∈ l, convert_coordinates tr c = .ok (some c)) →
      convElems tr l = .ok l := by
  intro l
  induction l with
  | nil => intro _ _; rfl
  | cons c cs ih =>
    intro hseq hconv
    have hs := hseq c (by simp)
    have hc := hconv c (by simp)
    have ihr := ih (fun x hx => hseq x (List.mem_cons_of_mem _ hx))
      (fun x hx => hconv x (List.mem_cons_of_mem _ hx))
    simp [convElems, hs, hc, ihr, bind, Except.bind, pure, Except.pure]

/-- On well-formed coordinates, convert_coordinates with the identity
transform returns the structure unchanged. -/
theorem conv_WF_id (tr : List PyV → List PyV) (htr : ∀ l, tr l = l) :
    ∀ v, WFCoords v → convert_coordinates tr v = .ok (some v) := by
  intro v hwf
  induction hwf with
  | pair l hne hfl =>
    cases l with
    | nil => exact absurd rfl hne
    | cons c0 rest =>
      have hf : isFloat c0 = true := hfl c0 (by simp)
      cases c0 <;> simp [isFloat] at hf
      simp [convert_coordinates, isSeq, isFloat, htr, pure, Except.pure]
  | nest l hne hshape hwfall ih =>
    cases l with
    | nil => exact absurd rfl hne
    | cons c0 rest =>
      obtain ⟨cs0, hc0⟩ := hshape c0 (by simp)
      have hs : isSeq c0 = true := by rw [hc0]; rfl
      have helems : convElems tr (c0 :: rest) = .ok (c0 :: rest) := by
        refine convElems_of_all tr _ (fun x hx => ?_) (fun x hx => ih x hx)
        obtain ⟨cs, hcs⟩ := hshape x hx
        rw [hcs]
        rfl
      simp [convert_coordinates, hs, helems, bind, Except.bind, pure, Except.pure]

/-- C2 counterexample: a geometry already in WGS84 whose crs tag is spelled
EPSG:4326 (which epsg_code resolves to 4326): to_latlon keeps the coordinate
values but rewrites the crs tag to the canonical URN, so the tag does not
stay unchanged for every spelling resolving to 4326. -/
theorem c2_counterexample :
    epsg_code (.vdict [("coordinates", PyV.vlist [PyV.vfloat 1, PyV.vfloat 2]),
      ("crs", PyV.vdict [("type", PyV.vstr "name"),
        ("properties", PyV.vdict [("name", PyV.vstr "EPSG:4326")])])]) = .ok (some 4326) ∧
    to_latlon idTrans (.vdict [("coordinates", PyV.vlist [PyV.vfloat 1, PyV.vfloat 2]),
      ("crs", PyV.vdict [("type", PyV.vstr "name"),
        ("properties", PyV.vdict [("name", PyV.vstr "EPSG:4326")])])]) none =
      .ok (.vdict [("coordinates", PyV.vlist [PyV.vfloat 1, PyV.vfloat 2]),
        ("crs", PyV.vdict [("type", PyV.vstr "name"),
          ("properties", PyV.vdict [("name", PyV.vstr wgs84Urn)])])]) ∧
    wgs84Urn ≠ "EPSG:4326" :=
  ⟨rfl, rfl, by decide⟩

/-- C2 (amended): for a geometry whose crs tag resolves to EPSG code 4326 and
whose coordinates are well-formed, to_latlon with the identity 4326-to-4326
transform leaves the coordinate values unchanged, but always rewrites the crs
tag to the canonical URN urn:ogc:def:crs:EPSG:8.9:4326 — so the tag value
stays unchanged only when it already used the canonical spelling. -/
theorem c2_theorem (trans : Int → Int → List PyV → List PyV) (d cd pd : Dict)
    (s : String) (co : PyV)
    (hcrs : dLookup d "crs" = some (.vdict cd))
    (hprops : dLookup cd "properties" = some (.vdict pd))
    (hname : dLookup pd "name" = some (.vstr s))
    (hin : "EPSG" ∈ pySplit s ':')
    (hparse : parseInt ((pySplit s ':').getLastD "") = some 4326)
    (hco : dLookup d "coordinates" = some co)
    (hwf : WFCoords co)
    (htr : ∀ l, trans 4326 4326 l = l) :
    ∃ d', to_latlon trans (.vdict d) none = .ok (.vdict d') ∧
      dLookup d' "coordinates" = some co ∧
      crsNameOf d' = some wgs84Urn := by
  have hmem : dMem d "crs" = true := dMem_of_dLookup hcrs
  rw [List.getLastD_eq_getLast?] at hparse
  have hepsg : epsg_code (.vdict d) = .ok (some 4326) := by
    simp [epsg_code, hmem, pyGetItem, hcrs, hprops, hname, hin, hparse, bind, Except.bind,
      pure, Except.pure]
  have hconv : convert_coordinates (trans 4326 4326) co = .ok (some co) :=
    conv_WF_id _ htr co hwf
  have htruthy : pyTruthy co = true := wf_truthy co hwf
  have hmem1 : dMem (dSet d "coordinates" co) "crs" = true := by
    rw [dMem_dSet, hmem]
    rfl
  have hcrs1 : dLookup (dSet d "coordinates" co) "crs" = some (.vdict cd) := by
    rw [dLookup_dSet_ne _ _ _ _ (by decide), hcrs]
  refine ⟨dSet (dSet d "coordinates" co) "crs"
    (.vdict (dSet cd "properties" (.vdict (dSet pd "name" (.vstr wgs84Urn))))), ?_, ?_, ?_⟩
  · simp [to_latlon, resolveCode, hepsg, pyGetItem, hco, hconv, htruthy, hmem1,
      setCrsName, hcrs1, hprops, bind, Except.bind, pure, Except.pure]
  · rw [dLookup_dSet_ne _ _ _ _ (by decide), dLookup_dSet_self]
  · simp [crsNameOf, dLookup_dSet_self]

/-- C2 witness: the theorem at a concrete polygon ring already in WGS84. -/
theorem c2_witness :
    ∃ d', to_latlon idTrans (.vdict [("coordinates",
        PyV.vlist [PyV.vlist [PyV.vfloat 10, PyV.vfloat 45], PyV.vlist [PyV.vfloat 11, PyV.vfloat 46]]),
      ("crs", PyV.vdict [("type", PyV.vstr "name"),
        ("properties", PyV.vdict [("name", PyV.vstr "urn:ogc:def:crs:EPSG:8.9:4326")])])]) none =
        .ok (.vdict d') ∧
      dLookup d' "coordinates" = some (PyV.vlist [PyV.vlist [PyV.vfloat 10, PyV.vfloat 45],
        PyV.vlist [PyV.vfloat 11, PyV.vfloat 46]]) ∧
      crsNameOf d' = some wgs84Urn := by
  have hwf1 : WFCoords (PyV.vlist [PyV.vfloat 10, PyV.vfloat 45]) := by
    refine WFCoords.pair _ (List.cons_ne_nil _ _) ?_
    intro x hx
    simp only [List.mem_cons, List.not_mem_nil, or_false] at hx
    rcases hx with hx | hx <;> (subst hx; rfl)
  have hwf2 : WFCoords (PyV.vlist [PyV.vfloat 11, PyV.vfloat 46]) := by
    refine WFCoords.pair _ (List.cons_ne_nil _ _) ?_
    intro x hx
    simp only [List.mem_cons, List.not_mem_nil, or_false] at hx
    rcases hx with hx | hx <;> (subst hx; rfl)
  have hwf : WFCoords (PyV.vlist [PyV.vlist [PyV.vfloat 10, PyV.vfloat 45],
      PyV.vlist [PyV.vfloat 11, PyV.vfloat 46]]) := by
    refine WFCoords.nest _ (List.cons_ne_nil _ _) ?_ ?_
    · intro c hc
      simp only [List.mem_cons, List.not_mem_nil, or_false] at hc
      rcases hc with hc | hc <;> exact ⟨_, hc⟩
    · intro c hc
      simp only [List.mem_cons, List.not_mem_nil, or_false] at hc
      rcases hc with hc | hc
      · subst hc; exact hwf1
      · subst hc; exact hwf2
  exact c2_theorem idTrans _ _ _ _ _ rfl rfl rfl (by decide) (by decide) rfl hwf (fun l => rfl)

/-! Claim C5: the post-state of a successful reprojection. -/

theorem depthMax_of_floats (l : List PyV) (h : ∀ c ∈ l, isFloat c = true) :
    depthMax l = 0 := by
  induction l with
  | nil => rfl
  | cons c cs ih =>
    have hc : isFloat c = true := h c (by simp)
    have hd : depthOf c = 0 := by
      cases c <;> simp [isFloat] at hc <;> rfl
    simp [depthMax, hd, ih (fun x hx => h x (List.mem_cons_of_mem _ hx))]

theorem convElems_shape (tr : List PyV → List PyV) :
    ∀ (l : List PyV),
      (∀ c ∈ l, isSeq c = true) →
      (∀ c ∈ l, ∃ nc, convert_coordinates tr c = .ok (some nc) ∧ depthOf nc = depthOf c) →
      ∃ rs, convElems tr l = .ok rs ∧ depthMax rs = depthMax l ∧ rs.length = l.length := by
  intro l
  induction l with
  | nil => exact fun _ _ => ⟨[], rfl, rfl, rfl⟩
  | cons c cs ih =>
    intro hseq hconv
    obtain ⟨nc, hc, hd⟩ := hconv c (by simp)
    obtain ⟨rs, hrs, hmax, hlen⟩ := ih (fun x hx => hseq x (List.mem_cons_of_mem _ hx))
      (fun x hx => hconv x (List.mem_cons_of_mem _ hx))
    have hs := hseq c (by simp)
    refine ⟨nc :: rs, ?_, ?_, ?_⟩
    · simp [convElems, hs, hc, hrs, bind, Except.bind, pure, Except.pure]
    · simp [depthMax, hd, hmax]
    · simp [hlen]

/-- On well-formed coordinates, convert_coordinates with a transform that
returns flat non-empty float lists (as pyproj does) succeeds with a truthy
nested-list result of the same nesting depth. -/
theorem conv_WF_shape (tr : List PyV → List PyV)
    (htrne : ∀ l, tr l ≠ [])
    (htrfl : ∀ l, ∀ x ∈ tr l, isFloat x = true) :
    ∀ v, WFCoords v → ∃ nc, convert_coordinates tr v = .ok (some nc) ∧
      depthOf nc = depthOf v ∧ pyTruthy nc = true ∧ (∃ rs, nc = .vlist rs) := by
  intro v hwf
  induction hwf with
  | pair l hne hfl =>
    cases l with
    | nil => exact absurd rfl hne
    | cons c0 rest =>
      have hf : isFloat c0 = true := hfl c0 (by simp)
      have hs : isSeq c0 = false := by
        cases c0 <;> simp [isFloat] at hf <;> rfl
      refine ⟨.vlist (tr (c0 :: rest)), ?_, ?_, ?_, ⟨_, rfl⟩⟩
      · simp [convert_coordinates, hs, hf, pure, Except.pure]
      · simp [depthOf, depthMax_of_floats _ (htrfl (c0 :: rest)),
          depthMax_of_floats _ hfl]
      · have := htrne (c0 :: rest)
        simp [pyTruthy, List.isEmpty_iff, this]
  | nest l hne hshape hwfall ih =>
    cases l with
    | nil => exact absurd rfl hne
    | cons c0 rest =>
      obtain ⟨cs0, hc0⟩ := hshape c0 (by simp)
      have hs : isSeq c0 = true := by rw [hc0]; rfl
      have hseq : ∀ c ∈ c0 :: rest, isSeq c = true := by
        intro x hx
        obtain ⟨cs, hcs⟩ := hshape x hx
        rw [hcs]
        rfl
      obtain ⟨rs, hrs, hmax, hlen⟩ := convElems_shape tr (c0 :: rest) hseq
        (fun x hx => by
          obtain ⟨nc, hc, hd, _, _⟩ := ih x hx
          exact ⟨nc, hc, hd⟩)
      refine ⟨.vlist rs, ?_, ?_, ?_, ⟨_, rfl⟩⟩
      · simp [convert_coordinates, hs, hrs, bind, Except.bind, pure, Except.pure]
      · simp [depthOf, hmax]
      · have : rs ≠ [] := by
          intro he
          rw [he] at hlen
          simp at hlen
        simp [pyTruthy, List.isEmpty_iff, this]

/-- C5 counterexample: a geometry with a resolvable EPSG code (32632) whose
coordinate conversion returns None (empty coordinates): to_latlon returns it
with crs tag and coordinates untouched, so the crs invariant does not hold
for every geometry with a resolvable code. -/
theorem c5_counterexample :
    epsg_code (.vdict [("coordinates", PyV.vlist []),
      ("crs", PyV.vdict [("type", PyV.vstr "name"),
        ("properties", PyV.vdict [("name", PyV.vstr "EPSG:32632")])])]) = .ok (some 32632) ∧
    to_latlon idTrans (.vdict [("coordinates", PyV.vlist []),
      ("crs", PyV.vdict [("type", PyV.vstr "name"),
        ("properties", PyV.vdict [("name", PyV.vstr "EPSG:32632")])])]) none =
      .ok (.vdict [("coordinates", PyV.vlist []),
        ("crs", PyV.vdict [("type", PyV.vstr "name"),
          ("properties", PyV.vdict [("name", PyV.vstr "EPSG:32632")])])]) ∧
    crsNameOf [("coordinates", PyV.vlist []),
      ("crs", PyV.vdict [("type", PyV.vstr "name"),
        ("properties", PyV.vdict [("name", PyV.vstr "EPSG:32632")])])] = some "EPSG:32632" ∧
    "EPSG:32632" ≠ wgs84Urn :=
  ⟨rfl, rfl, rfl, by decide⟩

/-- C5 (amended): for a geometry with a resolvable truthy EPSG code, a crs
member that is absent or well-shaped, and well-formed coordinates, to_latlon
succeeds, rewrites crs.properties.name to the canonical WGS84 URN (creating
the crs entry when absent) and replaces the coordinates with the recursively
transformed result, which preserves the nesting depth and is rebuilt out of
lists (tuples become lists).  When the conversion instead yields a falsy
result (malformed or empty coordinates), the geometry is left untouched. -/
theorem c5_theorem (trans : Int → Int → List PyV → List PyV) (d : Dict)
    (ospg : Option Int) (c : Int) (co : PyV)
    (hres : resolveCode (.vdict d) ospg = .ok (some c))
    (hc : c ≠ 0)
    (hco : dLookup d "coordinates" = some co)
    (hwf : WFCoords co)
    (htrne : ∀ l, trans c 4326 l ≠ [])
    (htrfl : ∀ l, ∀ x ∈ trans c 4326 l, isFloat x = true)
    (hcrs : dMem d "crs" = false ∨
      ∃ cd pd, dLookup d "crs" = some (.vdict cd) ∧
        dLookup cd "properties" = some (.vdict pd)) :
    ∃ d' nc, to_latlon trans (.vdict d) ospg = .ok (.vdict d') ∧
      crsNameOf d' = some wgs84Urn ∧
      dLookup d' "coordinates" = some nc ∧
      convert_coordinates (trans c 4326) co = .ok (some nc) ∧
      depthOf nc = depthOf co ∧ (∃ rs, nc = .vlist rs) := by
  obtain ⟨nc, hconv, hdepth, htruthy, hlist⟩ :=
    conv_WF_shape (trans c 4326) htrne htrfl co hwf
  rcases hcrs with habs | ⟨cd, pd, hcd, hpd⟩
  · have hmem1 : dMem (dSet d "coordinates" nc) "crs" = false := by
      rw [dMem_dSet, habs]
      rfl
    refine ⟨dSet (dSet d "coordinates" nc) "crs" freshCrs, nc, ?_, ?_, ?_, hconv, hdepth, hlist⟩
    · simp [to_latlon, hres, hc, pyGetItem, hco, hconv, htruthy, hmem1,
        bind, Except.bind, pure, Except.pure]
    · simp [crsNameOf, dLookup_dSet_self, freshCrs, dLookup]
    · rw [dLookup_dSet_ne _ _ _ _ (by decide), dLookup_dSet_self]
  · have hmem1 : dMem (dSet d "coordinates" nc) "crs" = true := by
      rw [dMem_dSet, dMem_of_dLookup hcd]
      rfl
    have hcd1 : dLookup (dSet d "coordinates" nc) "crs" = some (.vdict cd) := by
      rw [dLookup_dSet_ne _ _ _ _ (by decide), hcd]
    refine ⟨dSet (dSet d "coordinates" nc) "crs"
      (.vdict (dSet cd "properties" (.vdict (dSet pd "name" (.vstr wgs84Urn))))), nc,
      ?_, ?_, ?_, hconv, hdepth, hlist⟩
    · simp [to_latlon, hres, hc, pyGetItem, hco, hconv, htruthy, hmem1,
        setCrsName, hcd1, hpd, bind, Except.bind, pure, Except.pure]
    · simp [crsNameOf, dLookup_dSet_self]
    · rw [dLookup_dSet_ne _ _ _ _ (by decide), dLookup_dSet_self]

/-- C5 witness: the theorem at a concrete point geometry without a crs entry,
under a transform producing float pairs. -/
theorem c5_witness :
    ∃ d' nc, to_latlon flatTrans
        (.vdict [("coordinates", PyV.vlist [PyV.vfloat 1, PyV.vfloat 2])]) (some 32632) =
        .ok (.vdict d') ∧
      crsNameOf d' = some wgs84Urn ∧
      dLookup d' "coordinates" = some nc ∧
      convert_coordinates (flatTrans 32632 4326)
        (PyV.vlist [PyV.vfloat 1, PyV.vfloat 2]) = .ok (some nc) ∧
      depthOf nc = depthOf (PyV.vlist [PyV.vfloat 1, PyV.vfloat 2]) ∧
      (∃ rs, nc = .vlist rs) := by
  have hwf : WFCoords (PyV.vlist [PyV.vfloat 1, PyV.vfloat 2]) := by
    refine WFCoords.pair _ (List.cons_ne_nil _ _) ?_
    intro x hx
    simp only [List.mem_cons, List.not_mem_nil, or_false] at hx
    rcases hx with hx | hx <;> (subst hx; rfl)
  refine c5_theorem flatTrans _ (some 32632) 32632 _ rfl (by decide) rfl hwf
    (fun l => List.cons_ne_nil _ _) ?_ (Or.inl (by decide))
  intro l x hx
  simp only [flatTrans, List.mem_cons, List.not_mem_nil, or_false] at hx
  rcases hx with hx | hx <;> (subst hx; rfl)

/-! Claim C6: error behaviour of convert_coordinates. -/

theorem noMixList_iff (l : List PyV) : NoMixList l = true ↔ ∀ c ∈ l, NoMix c = true := by
  induction l with
  | nil => simp [NoMixList]
  | cons c cs ih => simp [NoMixList, Bool.and_eq_true, ih]

/-- The comprehension of convert_coordinates succeeds on a list of iterable
mix-free elements, and yields the embedded None exactly at the
null-contributing branches. -/
theorem convElems_noMix_aux (tr : List PyV → List PyV) :
    ∀ (n : Nat) (l : List PyV), sizeOf l ≤ n →
      (∀ c ∈ l, isIterable c = true ∧ NoMix c = true) →
      ∃ rs, convElems tr l = .ok rs ∧
        List.Forall₂ (fun c r => nullBranch c = true → r = PyV.vnone) l rs := by
  intro n
  induction n with
  | zero =>
    intro l hle _
    cases l <;> simp at hle
  | succ n ih =>
    intro l hle hall
    match l with
    | [] => exact ⟨[], rfl, List.Forall₂.nil⟩
    | c :: cs =>
      have hsize : sizeOf cs ≤ n := by
        have : sizeOf (c :: cs) = 1 + sizeOf c + sizeOf cs := by simp
        have hc : 0 < sizeOf c := by cases c <;> simp
        omega
      obtain ⟨rs, hrs, hfa⟩ := ih cs hsize (fun x hx => hall x (List.mem_cons_of_mem _ hx))
      obtain ⟨hit, hnm⟩ := hall c (by simp)
      have step : ∃ r, (if isSeq c then do
            let o ← convert_coordinates tr c
            pure (match o with | some v => v | none => PyV.vnone)
          else if isIterable c then
            pure PyV.vnone
          else
            (.error "TypeError" : Except String PyV)) = .ok r ∧
          (nullBranch c = true → r = PyV.vnone) := by
        match c with
        | .vstr s => exact ⟨.vnone, rfl, fun _ => rfl⟩
        | .vdict kvs => exact ⟨.vnone, rfl, fun _ => rfl⟩
        | .vfloat q => simp [isIterable] at hit
        | .vint m => simp [isIterable] at hit
        | .vnone => simp [isIterable] at hit
        | .vlist l' =>
          match l' with
          | [] => exact ⟨.vnone, rfl, fun _ => rfl⟩
          | c0 :: rest =>
            by_cases hs0 : isSeq c0 = true
            · have hnm' : seqElemsOK (c0 :: rest) = true ∧ NoMixList (c0 :: rest) = true := by
                simpa [NoMix, Bool.and_eq_true] using hnm
              have hiter : ∀ x ∈ c0 :: rest, isIterable x = true := by
                have := hnm'.1
                simpa [seqElemsOK, hs0, List.all_eq_true] using this
              have hsub : sizeOf (c0 :: rest) ≤ n := by
                have h1 : sizeOf (PyV.vlist (c0 :: rest) :: cs) =
                    1 + (1 + sizeOf (c0 :: rest)) + sizeOf cs := by simp
                omega
              obtain ⟨rs', hrs', _⟩ := ih (c0 :: rest) hsub
                (fun x hx => ⟨hiter x hx, (noMixList_iff _).mp hnm'.2 x hx⟩)
              refine ⟨.vlist rs', ?_, ?_⟩
              · have hconv : convert_coordinates tr (.vlist (c0 :: rest)) =
                    .ok (some (.vlist rs')) := by
                  simp [convert_coordinates, hs0, hrs', bind, Except.bind, pure, Except.pure]
                simp [isSeq, hconv, bind, Except.bind, pure, Except.pure]
              · intro hnb
                simp [nullBranch, hs0] at hnb
            · by_cases hf0 : isFloat c0 = true
              · refine ⟨.vlist (tr (c0 :: rest)), ?_, ?_⟩
                · have hconv : convert_coordinates tr (.vlist (c0 :: rest)) =
                      .ok (some (.vlist (tr (c0 :: rest)))) := by
                    simp [convert_coordinates, hs0, hf0, pure, Except.pure]
                  simp [isSeq, hconv, bind, Except.bind, pure, Except.pure]
                · intro hnb
                  simp [nullBranch, hs0, hf0] at hnb
              · refine ⟨.vnone, ?_, fun _ => rfl⟩
                have hconv : convert_coordinates tr (.vlist (c0 :: rest)) = .ok none := by
                  simp [convert_coordinates, hs0, hf0]
                simp [isSeq, hconv, bind, Except.bind, pure, Except.pure]
        | .vtuple l' =>
          match l' with
          | [] => exact ⟨.vnone, rfl, fun _ => rfl⟩
          | c0 :: rest =>
            by_cases hs0 : isSeq c0 = true
            · have hnm' : seqElemsOK (c0 :: rest) = true ∧ NoMixList (c0 :: rest) = true := by
                simpa [NoMix, Bool.and_eq_true] using hnm
              have hiter : ∀ x ∈ c0 :: rest, isIterable x = true := by
                have := hnm'.1
                simpa [seqElemsOK, hs0, List.all_eq_true] using this
              have hsub : sizeOf (c0 :: rest) ≤ n := by
                have h1 : sizeOf (PyV.vtuple (c0 :: rest) :: cs) =
                    1 + (1 + sizeOf (c0 :: rest)) + sizeOf cs := by simp
                omega
              obtain ⟨rs', hrs', _⟩ := ih (c0 :: rest) hsub
                (fun x hx => ⟨hiter x hx, (noMixList_iff _).mp hnm'.2 x hx⟩)
              refine ⟨.vlist rs', ?_, ?_⟩
              · have hconv : convert_coordinates tr (.vtuple (c0 :: rest)) =
                    .ok (some (.vlist rs')) := by
                  simp [convert_coordinates, hs0, hrs', bind, Except.bind, pure, Except.pure]
                simp [isSeq, hconv, bind, Except.bind, pure, Except.pure]
              · intro hnb
                simp [nullBranch, hs0] at hnb
            · by_cases hf0 : isFloat c0 = true
              · refine ⟨.vlist (tr (c0 :: rest)), ?_, ?_⟩
                · have hconv : convert_coordinates tr (.vtuple (c0 :: rest)) =
                      .ok (some (.vlist (tr (c0 :: rest)))) := by
                    simp [convert_coordinates, hs0, hf0, pure, Except.pure]
                  simp [isSeq, hconv, bind, Except.bind, pure, Except.pure]
                · intro hnb
                  simp [nullBranch, hs0, hf0] at hnb
              · refine ⟨.vnone, ?_, fun _ => rfl⟩
                have hconv : convert_coordinates tr (.vtuple (c0 :: rest)) = .ok none := by
                  simp [convert_coordinates, hs0, hf0]
                simp [isSeq, hconv, bind, Except.bind, pure, Except.pure]
      obtain ⟨r, hr, hrnull⟩ := step
      refine ⟨r :: rs, ?_, List.Forall₂.cons hrnull hfa⟩
      simp only [bind, Except.bind, pure, Except.pure] at hr
      simp only [convElems, bind, Except.bind, hr, hrs, pure, Except.pure]

/-- C6 counterexample: a sequence whose first element is a nested list but
whose second element is a float raises an uncaught TypeError from list(c),
aborting the whole conversion, so convert_coordinates is not raise-free. -/
theorem c6_counterexample :
    convert_coordinates (idTrans 0 0)
      (PyV.vlist [PyV.vlist [PyV.vfloat 1, PyV.vfloat 2], PyV.vfloat 3]) =
      .error "TypeError" := rfl

/-- C6 (amended): convert_coordinates never raises on mix-free inputs, where
no sequence combines a sequence first element with a non-iterable sibling:
empty sequences, non-sequences, and sequences headed by a non-sequence
non-float yield None for that branch only, leaving sibling branches intact;
but a sequence mixing a sequence head with a numeric or None sibling raises
TypeError, aborting the whole conversion (the counterexample). -/
theorem c6_theorem :
    (∀ (tr : List PyV → List PyV) (v : PyV), NoMix v = true →
      ∃ r, convert_coordinates tr v = .ok r) ∧
    (∀ (tr : List PyV → List PyV) (c0 : PyV) (rest : List PyV), isSeq c0 = true →
      (∀ c ∈ c0 :: rest, isIterable c = true ∧ NoMix c = true) →
      ∃ rs, convert_coordinates tr (.vlist (c0 :: rest)) = .ok (some (.vlist rs)) ∧
        List.Forall₂ (fun c r => nullBranch c = true → r = PyV.vnone) (c0 :: rest) rs) := by
  have hmain : ∀ (tr : List PyV → List PyV) (c0 : PyV) (rest : List PyV), isSeq c0 = true →
      (∀ c ∈ c0 :: rest, isIterable c = true ∧ NoMix c = true) →
      ∃ rs, convert_coordinates tr (.vlist (c0 :: rest)) = .ok (some (.vlist rs)) ∧
        List.Forall₂ (fun c r => nullBranch c = true → r = PyV.vnone) (c0 :: rest) rs := by
    intro tr c0 rest hs0 hall
    obtain ⟨rs, hrs, hfa⟩ := convElems_noMix_aux tr (sizeOf (c0 :: rest)) (c0 :: rest)
      (le_refl _) hall
    refine ⟨rs, ?_, hfa⟩
    simp [convert_coordinates, hs0, hrs, bind, Except.bind, pure, Except.pure]
  constructor
  · intro tr v hnm
    match v with
    | .vstr s => exact ⟨none, rfl⟩
    | .vdict kvs => exact ⟨none, rfl⟩
    | .vfloat q => exact ⟨none, rfl⟩
    | .vint m => exact ⟨none, rfl⟩
    | .vnone => exact ⟨none, rfl⟩
    | .vlist l =>
      match l with
      | [] => exact ⟨none, rfl⟩
      | c0 :: rest =>
        by_cases hs0 : isSeq c0 = true
        · have hnm' : seqElemsOK (c0 :: rest) = true ∧ NoMixList (c0 :: rest) = true := by
            simpa [NoMix, Bool.and_eq_true] using hnm
          have hiter : ∀ x ∈ c0 :: rest, isIterable x = true := by
            have := hnm'.1
            simpa [seqElemsOK, hs0, List.all_eq_true] using this
          obtain ⟨rs, hrs, _⟩ := hmain tr c0 rest hs0
            (fun x hx => ⟨hiter x hx, (noMixList_iff _).mp hnm'.2 x hx⟩)
          exact ⟨some (.vlist rs), hrs⟩
        · by_cases hf0 : isFloat c0 = true
          · refine ⟨some (.vlist (tr (c0 :: rest))), ?_⟩
            simp [convert_coordinates, hs0, hf0, pure, Except.pure]
          · refine ⟨none, ?_⟩
            simp [convert_coordinates, hs0, hf0]
    | .vtuple l =>
      match l with
      | [] => exact ⟨none, rfl⟩
      | c0 :: rest =>
        by_cases hs0 : isSeq c0 = true
        · have hnm' : seqElemsOK (c0 :: rest) = true ∧ NoMixList (c0 :: rest) = true := by
            simpa [NoMix, Bool.and_eq_true] using hnm
          have hiter : ∀ x ∈ c0 :: rest, isIterable x = true := by
            have := hnm'.1
            simpa [seqElemsOK, hs0, List.all_eq_true] using this
          obtain ⟨rs, hrs0, _⟩ := convElems_noMix_aux tr (sizeOf (c0 :: rest)) (c0 :: rest)
            (le_refl _) (fun x hx => ⟨hiter x hx, (noMixList_iff _).mp hnm'.2 x hx⟩)
          refine ⟨some (.vlist rs), ?_⟩
          simp [convert_coordinates, hs0, hrs0, bind, Except.bind, pure, Except.pure]
        · by_cases hf0 : isFloat c0 = true
          · refine ⟨some (.vlist (tr (c0 :: rest))), ?_⟩
            simp [convert_coordinates, hs0, hf0, pure, Except.pure]
          · refine ⟨none, ?_⟩
            simp [convert_coordinates, hs0, hf0]
  · exact hmain

/-- C6 witness: the theorem applied to a mix-free nested structure and to a
sequence containing a localized malformed branch (a string sibling). -/
theorem c6_witness :
    (∃ r, convert_coordinates (idTrans 0 0)
      (PyV.vlist [PyV.vlist [PyV.vfloat 1, PyV.vfloat 2]]) = .ok r) ∧
    (∃ rs, convert_coordinates (idTrans 0 0)
        (PyV.vlist [PyV.vlist [PyV.vfloat 1, PyV.vfloat 2], PyV.vstr "x", PyV.vlist []]) =
        .ok (some (.vlist rs)) ∧
      List.Forall₂ (fun c r => nullBranch c = true → r = PyV.vnone)
        [PyV.vlist [PyV.vfloat 1, PyV.vfloat 2], PyV.vstr "x", PyV.vlist []] rs) := by
  constructor
  · exact c6_theorem.1 (idTrans 0 0) _ (by decide)
  · exact c6_theorem.2 (idTrans 0 0) (PyV.vlist [PyV.vfloat 1, PyV.vfloat 2])
      [PyV.vstr "x", PyV.vlist []] rfl (by decide)

/-! Claim C1: missing scalar elements in metadata_to_dict. -/

/-- C1 counterexample: a metadata tree in which the optional scalar element
Cloud_Coverage_Assessment is absent (the other required containers present):
the extraction loop records None, but the following float(None) conversion
raises TypeError, so the absence of this scalar key is fatal, not a recorded
null. -/
theorem c1_counterexample :
    metadata_to_dict (XmlEl.mk "Level-1C_User_Product" [] none
      [XmlEl.mk "SENSING_ORBIT_NUMBER" [] (some "22") [],
       XmlEl.mk "Product_Organisation" [] none [],
       XmlEl.mk "Band_List" [] none []]) = .error "TypeError" := rfl

/-- C1 (amended): for the seven fixed scalar keys other than
Cloud_Coverage_Assessment and SENSING_ORBIT_NUMBER, absence of the element is
non-fatal and yields a null-valued entry in the returned mapping, provided
the rest of the extraction succeeds; absence of either of the two converted
keys aborts metadata_to_dict with a TypeError from float(None) or int(None). -/
theorem c1_theorem (root : XmlEl) (q : Rat) (n : Int) (po bl : XmlEl)
    (tl : List (String × PyV)) (bands : List PyV) (K : String)
    (hcca : py_float (scalarVal root "Cloud_Coverage_Assessment") = .ok q)
    (hson : py_int (scalarVal root "SENSING_ORBIT_NUMBER") = .ok n)
    (hpo : (findall root "Product_Organisation").head? = some po)
    (htl : get_tiles_list po = .ok tl)
    (hbl : (findall root "Band_List").head? = some bl)
    (hbp : band_pass bl = .ok bands)
    (hK : K ∈ ["SPACECRAFT_NAME", "PRODUCT_STOP_TIME", "PROCESSING_LEVEL",
      "PRODUCT_TYPE", "PROCESSING_BASELINE", "SENSING_ORBIT_DIRECTION", "PRODUCT_FORMAT"])
    (habs : findall root K = []) :
    ∃ m, metadata_to_dict root = .ok m ∧ dLookup m (pyLower K) = some PyV.vnone := by
  have hl1 : dLookup (scalar_pass root) "cloud_coverage_assessment" =
      some (scalarVal root "Cloud_Coverage_Assessment") := rfl
  have hl2 : dLookup (dSet (dPop (scalar_pass root) "cloud_coverage_assessment")
      "product_cloud_coverage_assessment" (.vfloat q)) "sensing_orbit_number" =
      some (scalarVal root "SENSING_ORBIT_NUMBER") := rfl
  refine ⟨dSet (dSet (dSet (dSet (dPop (scalar_pass root) "cloud_coverage_assessment")
    "product_cloud_coverage_assessment" (.vfloat q)) "sensing_orbit_number" (.vint n))
    "tiles" (.vdict tl)) "band_list" (.vlist bands), ?_, ?_⟩
  · simp only [metadata_to_dict, hl1, hcca, hl2, hson, hpo, htl, hbl, hbp,
      bind, Except.bind, pure, Except.pure]
  · have hv : scalarVal root K = PyV.vnone := by
      simp [scalarVal, habs]
    rw [← hv]
    simp only [List.mem_cons, List.not_mem_nil, or_false] at hK
    rcases hK with rfl | rfl | rfl | rfl | rfl | rfl | rfl <;> rfl

/-- C1 witness: the theorem applied at a tree where SPACECRAFT_NAME is
absent but the cloud coverage, orbit number and both containers are
present. -/
theorem c1_witness :
    ∃ m, metadata_to_dict (XmlEl.mk "Level-1C_User_Product" [] none
      [XmlEl.mk "Cloud_Coverage_Assessment" [] (some "12") [],
       XmlEl.mk "SENSING_ORBIT_NUMBER" [] (some "22") [],
       XmlEl.mk "Product_Organisation" [] none
         [XmlEl.mk "Granule_List" [] none
           [XmlEl.mk "Granules"
             [("granuleIdentifier", "L1C_T32TQM_A002701_20160101T102023")] none []]],
       XmlEl.mk "Band_List" [] none [XmlEl.mk "BAND_NAME" [] (some "B4") []]]) = .ok m ∧
      dLookup m (pyLower "SPACECRAFT_NAME") = some PyV.vnone :=
  c1_theorem _ _ _ _ _ _ _ "SPACECRAFT_NAME" rfl rfl rfl rfl rfl rfl (by decide) rfl

/-! Claim C10: fatal grid-code lookup miss in tile_metadata. -/

/-- C10: when the computed grid code is absent from the tiles mapping,
tile_metadata raises KeyError, and it raises before performing any mutation:
the error carries both input dicts exactly as passed in, with tiles and
band_list still in the product record and datastrip still in the tile
record. -/
theorem c10_theorem (trans : Int → Int → List PyV → List PyV)
    (tile product : Dict) (uz lat sq : PyV) (tl : List (String × PyV))
    (huz : dLookup tile "utmZone" = some uz)
    (hlat : dLookup tile "latitudeBand" = some lat)
    (hsq : dLookup tile "gridSquare" = some sq)
    (hpt : dLookup product "tiles" = some (.vdict tl))
    (hmiss : dLookup tl (grid_code uz lat sq) = none) :
    tile_metadata trans tile product = .error ("KeyError", tile, product) := by
  simp only [tile_metadata, tmGet, huz, hlat, hsq, hpt, hmiss,
    bind, Except.bind, pure, Except.pure]

/-- C10 witness: a tile whose grid code T33TQM misses the tiles mapping that
only holds T32TQM; the call fails with KeyError and both dicts are returned
in the error exactly as passed, transient keys included. -/
theorem c10_witness :
    tile_metadata idTrans
      [("utmZone", PyV.vint 33), ("latitudeBand", PyV.vstr "T"),
       ("gridSquare", PyV.vstr "QM"),
       ("timestamp", PyV.vstr "2016-01-01T10:20:23.456Z"),
       ("path", PyV.vstr "tiles/33/T/QM/2016/1/1/0"), ("datastrip", PyV.vdict [])]
      [("tiles", PyV.vdict [("T32TQM", PyV.vstr "L1C_T32TQM_A002701_20160101T102023")]),
       ("band_list", PyV.vlist [PyV.vstr "B04"])] =
      .error ("KeyError",
        [("utmZone", PyV.vint 33), ("latitudeBand", PyV.vstr "T"),
         ("gridSquare", PyV.vstr "QM"),
         ("timestamp", PyV.vstr "2016-01-01T10:20:23.456Z"),
         ("path", PyV.vstr "tiles/33/T/QM/2016/1/1/0"), ("datastrip", PyV.vdict [])],
        [("tiles", PyV.vdict [("T32TQM", PyV.vstr "L1C_T32TQM_A002701_20160101T102023")]),
         ("band_list", PyV.vlist [PyV.vstr "B04"])]) :=
  c10_theorem idTrans _ _ _ _ _ _ rfl rfl rfl rfl rfl

/-! Claim C8: the assembled download links. -/

/-- The geometry loop of tile_metadata does nothing when none of the three
geometry keys is present in the assembled record. -/
theorem geoFold_skip (trans : Int → Int → List PyV → List PyV) (t q m : Dict)
    (h1 : dMem m "tile_origin" = false) (h2 : dMem m "tile_geometry" = false)
    (h3 : dMem m "tile_data_geometry" = false) :
    geoKeys.foldlM (geoStep trans t q) m = pure m := by
  simp [geoKeys, List.foldlM, geoStep, h1, h2, h3, bind, Except.bind, pure, Except.pure]

/-- C8: for a tile record of the documented shape and a product record that
carries the tiles mapping and the band list (and, per the data model, no
path or geometry keys of its own), the assembled record maps download_links
to a dict whose aws_s3 entry holds exactly one URL per band-list entry, in
band-list order, each equal to the fixed S3 base URL, then the tile path,
then the band identifier with the .jp2 suffix. -/
theorem c8_theorem (trans : Int → Int → List PyV → List PyV)
    (uz lat sq ds : PyV) (ts p : String) (product : Dict)
    (tl : List (String × PyV)) (tn : PyV) (bs : List PyV)
    (hpt : dLookup product "tiles" = some (.vdict tl))
    (hgrid : dLookup tl (grid_code uz lat sq) = some tn)
    (hbl : dLookup product "band_list" = some (.vlist bs))
    (hnp : dMem product "path" = false)
    (hg1 : dMem product "tile_origin" = false)
    (hg2 : dMem product "tile_geometry" = false)
    (hg3 : dMem product "tile_data_geometry" = false) :
    ∃ out, tile_metadata trans
        [("utmZone", uz), ("latitudeBand", lat), ("gridSquare", sq),
         ("timestamp", PyV.vstr ts), ("path", PyV.vstr p), ("datastrip", ds)] product =
        .ok out ∧
      dLookup out.meta "download_links" = some (.vdict [("aws_s3",
        .vlist (bs.map (fun b =>
          PyV.vstr (s3_url ++ "/" ++ p ++ "/" ++ pyStr b ++ ".jp2"))))]) := by
  have h_bl2 : dLookup (dPop product "tiles") "band_list" = some (.vlist bs) := by
    rw [dLookup_dPop_ne _ _ _ (by decide), hbl]
  have hnp2 : dMem (dPop (dPop product "tiles") "band_list") "path" = false := by
    rw [dMem_dPop_ne _ _ _ (by decide), dMem_dPop_ne _ _ _ (by decide), hnp]
  have hg1' : dMem (dPop (dPop product "tiles") "band_list") "tile_origin" = false := by
    rw [dMem_dPop_ne _ _ _ (by decide), dMem_dPop_ne _ _ _ (by decide), hg1]
  have hg2' : dMem (dPop (dPop product "tiles") "band_list") "tile_geometry" = false := by
    rw [dMem_dPop_ne _ _ _ (by decide), dMem_dPop_ne _ _ _ (by decide), hg2]
  have hg3' : dMem (dPop (dPop product "tiles") "band_list") "tile_data_geometry" = false := by
    rw [dMem_dPop_ne _ _ _ (by decide), dMem_dPop_ne _ _ _ (by decide), hg3]
  have hc1 : camelcase_underscore "utmZone" = "utm_zone" := rfl
  have hc2 : camelcase_underscore "latitudeBand" = "latitude_band" := rfl
  have hc3 : camelcase_underscore "gridSquare" = "grid_square" := rfl
  have hc4 : camelcase_underscore "timestamp" = "timestamp" := rfl
  have hc5 : camelcase_underscore "path" = "path" := rfl
  refine ⟨⟨dSet (dUpdate [("tile_name", tn), ("date", .vstr ((pySplit ts 'T').headD "")),
      ("thumbnail", .vstr (s3_url ++ "/" ++ p ++ "/preview.jp2")), ("utm_zone", uz),
      ("latitude_band", lat), ("grid_square", sq), ("timestamp", .vstr ts),
      ("path", .vstr p)] (dPop (dPop product "tiles") "band_list")) "download_links"
      (.vdict [("aws_s3", .vlist (bs.map (fun b =>
        PyV.vstr (s3_url ++ "/" ++ p ++ "/" ++ pyStr b ++ ".jp2"))))]),
    [("utmZone", uz), ("latitudeBand", lat), ("gridSquare", sq),
     ("timestamp", .vstr ts), ("path", .vstr p)],
    dPop (dPop product "tiles") "band_list"⟩, ?_, ?_⟩
  · have hpyp : pyStr (PyV.vstr p) = p := rfl
    simp only [tile_metadata, tmGet, dLookup, dMem, dSet, dPop, pyListOf,
      List.foldl, hc1, hc2, hc3, hc4, hc5, hpt, hgrid, h_bl2, hpyp,
      bind, Except.bind, pure, Except.pure, String.reduceEq, reduceIte,
      decide_True, decide_False, Bool.false_or, Bool.or_false, Bool.true_or, Bool.or_true]
    rw [dLookup_dUpdate_of_not_mem _ _ _ hnp2]
    simp only [dLookup, String.reduceEq, reduceIte, hpyp,
      bind, Except.bind, pure, Except.pure]
    rw [geoFold_skip trans _ _ _
      (by rw [dMem_dSet, dMem_dUpdate_false _ _ _ (by rfl) hg1']; rfl)
      (by rw [dMem_dSet, dMem_dUpdate_false _ _ _ (by rfl) hg2']; rfl)
      (by rw [dMem_dSet, dMem_dUpdate_false _ _ _ (by rfl) hg3']; rfl)]
    simp only [bind, Except.bind, pure, Except.pure]
  · exact dLookup_dSet_self _ _ _

/-- C8 witness: the spec scenario — one band B04, path tiles/32/T/QM/2016/1/1/0,
producing exactly the documented single download link. -/
theorem c8_witness :
    ∃ out, tile_metadata idTrans
        [("utmZone", PyV.vint 32), ("latitudeBand", PyV.vstr "T"),
         ("gridSquare", PyV.vstr "QM"),
         ("timestamp", PyV.vstr "2016-01-01T10:20:23.456Z"),
         ("path", PyV.vstr "tiles/32/T/QM/2016/1/1/0"), ("datastrip", PyV.vdict [])]
        [("tiles", PyV.vdict [("T32TQM", PyV.vstr "L1C_T32TQM_A002701_20160101T102023")]),
         ("band_list", PyV.vlist [PyV.vstr "B04"])] = .ok out ∧
      dLookup out.meta "download_links" = some (.vdict [("aws_s3",
        .vlist [PyV.vstr
          "http://sentinel-s2-l1c.s3.amazonaws.com/tiles/32/T/QM/2016/1/1/0/B04.jp2"])]) := by
  obtain ⟨out, h1, h2⟩ := c8_theorem idTrans (PyV.vint 32) (PyV.vstr "T") (PyV.vstr "QM")
    (PyV.vdict []) "2016-01-01T10:20:23.456Z" "tiles/32/T/QM/2016/1/1/0"
    [("tiles", PyV.vdict [("T32TQM", PyV.vstr "L1C_T32TQM_A002701_20160101T102023")]),
     ("band_list", PyV.vlist [PyV.vstr "B04"])]
    [("T32TQM", PyV.vstr "L1C_T32TQM_A002701_20160101T102023")]
    (PyV.vstr "L1C_T32TQM_A002701_20160101T102023") [PyV.vstr "B04"]
    rfl rfl rfl rfl rfl rfl rfl
  exact ⟨out, h1, h2.trans rfl⟩

end SentinelS3
